import Mathlib

/-!
Verification of the piece-checking server (`Server.py`, `lego_pose.py`).

The embedding models Python numbers as exact rationals (`ℚ`): the hard-coded
ratios 0.18 / 0.15 and the threshold 0.45 appear as `18/100`, `15/100`,
`45/100`.  Python's `int(x)` on a float (truncation toward zero) is `pyInt`.
External collaborators (base64 decoding, `cv2.imdecode`, the YOLO model) are
oracles collected in `Env`; a Python exception raised by one of them is an
`Except.error`, which the request handler's `try/except` turns into the
error payload.  Image pixel data is irrelevant to every property considered
here, so an image is modelled by its height and width.
-/

/-- Python `int(q)` for a rational: truncation toward zero
(`q.num / q.den` with T-division). -/
def pyInt (q : ℚ) : Int := q.num.tdiv (q.den : Int)

/-- Python `str.strip()`: whitespace removed from both ends. -/
def pyStrip (s : String) : String :=
  ⟨((s.data.dropWhile Char.isWhitespace).reverse.dropWhile Char.isWhitespace).reverse⟩

/-- A decoded image: only its dimensions matter to the pipeline logic. -/
structure Image where
  height : Nat
  width : Nat
deriving DecidableEq, Repr

/-- One YOLO detection, in cropped-frame coordinates.  `keypoints` is
`none` when the model reports no keypoints for this detection (or their
extraction fails); otherwise it is the `(N, 2)` array as a list of rows. -/
structure Detection where
  clsId : Int
  conf : ℚ
  box : List ℚ
  keypoints : Option (List (List ℚ))
deriving DecidableEq, Repr

def defaultDet : Detection := ⟨0, 0, [], none⟩

/-- `CLASS_NAMES.get(cls_id, f"class_{cls_id}")` from `Server.py`. -/
def classNameOf (names : Int → Option String) (cid : Int) : String :=
  (names cid).getD ("class_" ++ toString cid)

/-- `crop_play_area` from `Server.py`.

`y_start = int(h * top_cut_ratio)`, `y_end = int(h * (1.0 - bottom_cut_ratio))`,
`cropped = img[y_start:y_end, 0:w]`.  The returned value is
`((cropped.height, cropped.width), y_start)`.  Row-slice length follows
numpy semantics for the nonnegative bounds produced by ratios in `[0, 1)`:
both bounds are clamped into `[0, h]` and a reversed range is empty. -/
def crop_play_area (h w : Nat) (top_cut_ratio bottom_cut_ratio : ℚ) :
    (Nat × Nat) × Int :=
  let y_start : Int := pyInt ((h : ℚ) * top_cut_ratio)
  let y_end : Int := pyInt ((h : ℚ) * (1 - bottom_cut_ratio))
  (((min y_end (h : Int)).toNat - (min y_start (h : Int)).toNat, w), y_start)

/-- `compute_center_from_keypoints` from `lego_pose.py`.

A defined input is the rectangular array `np.asarray` builds from the
keypoint rows.  `pts.ndim != 2` holds exactly when the row list is empty
(`np.asarray([])` has shape `(0,)`); `pts.shape[1] != 2` holds when a row's
width differs from 2; `pts.shape[0] == 0` is again the empty row list.
Otherwise the function returns the mean of the x column and of the y
column. -/
def compute_center_from_keypoints (keypoints_2d : Option (List (List ℚ))) :
    Option (ℚ × ℚ) :=
  match keypoints_2d with
  | none => none
  | some pts =>
    if pts.length = 0 then none
    else if pts.any (fun r => r.length != 2) then none
    else
      some ((pts.map (fun r => r.getD 0 0)).sum / pts.length,
            (pts.map (fun r => r.getD 1 0)).sum / pts.length)

/-- The dictionary returned by `estimate_pose` in `lego_pose.py`
(rotation permanently disabled: `yaw`, `pitch`, `roll`, `reproj_error`
are always `None`). -/
structure PoseResult where
  success : Bool
  part_id : String
  center_x : Option ℚ
  center_y : Option ℚ
  yaw : Option ℚ
  pitch : Option ℚ
  roll : Option ℚ
  reproj_error : Option ℚ
deriving DecidableEq, Repr

/-- `estimate_pose` from `lego_pose.py`: success iff a keypoint center
exists; never any rotation. -/
def estimate_pose (keypoints_2d : Option (List (List ℚ))) (part_id : String) :
    PoseResult :=
  match compute_center_from_keypoints keypoints_2d with
  | none => ⟨false, part_id, none, none, none, none, none, none⟩
  | some (cx, cy) => ⟨true, part_id, some cx, some cy, none, none, none, none⟩

/-- The JSON payload of a response with `success = true`
(`success` and the conditional `error` field are captured by the
`Response` constructors). -/
structure OkPayload where
  found : Bool
  matched : Bool
  yolo_class : String
  expected_class : String
  step_index : Int
  confidence : ℚ
  yaw : Option ℚ
  pitch : Option ℚ
  roll : Option ℚ
  reproj_error : Option ℚ
  center_x : ℚ
  center_y : ℚ
deriving DecidableEq, Repr

/-- One JSON response: either `{success: false, error: msg}` or
`{success: true, ...payload}`. -/
inductive Response where
  | err (msg : String) : Response
  | ok (p : OkPayload) : Response
deriving DecidableEq, Repr

/-- A request body, after JSON parsing: `none` fields are absent keys. -/
structure Request where
  image : Option String
  expected_class : Option String
  step_index : Option Int
deriving DecidableEq, Repr

/-- External collaborators of the handler.  `b64decode` and `detect` may
raise (modelled by `Except.error`); `cv2.imdecode` signals failure by
returning `None`. -/
structure Env where
  classNames : Int → Option String
  b64decode : String → Except String (List Nat)
  imdecode : List Nat → Option Image
  detect : Image → Except String (List Detection)

/-- Error message of the missing-field payload (source punctuation:
the field names are single-quoted there). -/
def missingFieldMsg : String := "Missing image or expected_class in request"

/-- Error message of the decode-failure payload. -/
def decodeFailMsg : String := "Failed to decode image from Base64"

def THRESH : ℚ := 45 / 100

/-- `detClass names dets i` is the class name the selection loop computes
for the detection at index `i`. -/
def detClass (names : Int → Option String) (dets : List Detection) (i : Nat) :
    String :=
  classNameOf names (dets.getD i defaultDet).clsId

/-- Confidence of the detection at index `i`. -/
def detConf (dets : List Detection) (i : Nat) : ℚ :=
  (dets.getD i defaultDet).conf

/-- The `candidate_indices` loop of `check_piece`: indices whose class name
equals `expected_class` (case-sensitive string equality). -/
def candidateIndices (names : Int → Option String) (dets : List Detection)
    (expected_class : String) : List Nat :=
  (List.range dets.length).filter (fun i => detClass names dets i == expected_class)

/-- CPython's `max`: scan left to right, replacing the current best only
when the new key is strictly greater, so the first maximal element wins. -/
def pyFoldMax (key : Nat → ℚ) (b : Nat) (l : List Nat) : Nat :=
  l.foldl (fun a j => if key a < key j then j else a) b

/-- `max(candidate_indices, key=lambda idx: confs[idx])`, returning `none`
on an empty candidate list. -/
def selectBest (names : Int → Option String) (dets : List Detection)
    (expected_class : String) : Option Nat :=
  match candidateIndices names dets expected_class with
  | [] => none
  | i :: is => some (pyFoldMax (detConf dets) i is)

/-- The "no detections at all" response of `check_piece`. -/
def noDetectionsResponse (expected_class : String) (step_index : Int) : Response :=
  Response.ok ⟨false, false, "", expected_class, step_index, 0,
    none, none, none, none, -1, -1⟩

/-- The "expected piece not found" response of `check_piece` (same payload
as `noDetectionsResponse`; only the debug annotation differs). -/
def noMatchResponse (expected_class : String) (step_index : Int) : Response :=
  Response.ok ⟨false, false, "", expected_class, step_index, 0,
    none, none, none, none, -1, -1⟩

/-- The found-branch of `check_piece` for the selected detection `d`:
keypoint extraction, `estimate_pose`, center remap by `crop_y_start`,
and the `matched = best_conf >= THRESH` test. -/
def foundResponse (names : Int → Option String) (crop_y_start : Int)
    (expected_class : String) (step_index : Int) (d : Detection) : Response :=
  let yolo_class := classNameOf names d.clsId
  let image_points := d.keypoints
  let pose_result : Option PoseResult :=
    match image_points with
    | none => none
    | some kp => some (estimate_pose (some kp) yolo_class)
  let matched := decide (THRESH ≤ d.conf)
  match pose_result with
  | some pr =>
    if pr.success then
      match pr.center_x, pr.center_y with
      | some cx, some cy =>
          Response.ok ⟨true, matched, yolo_class, expected_class, step_index,
            d.conf, pr.yaw, pr.pitch, pr.roll, pr.reproj_error,
            cx, cy + (crop_y_start : ℚ)⟩
      | _, _ =>
          Response.ok ⟨true, matched, yolo_class, expected_class, step_index,
            d.conf, pr.yaw, pr.pitch, pr.roll, pr.reproj_error, -1, -1⟩
    else
      Response.ok ⟨true, matched, yolo_class, expected_class, step_index,
        d.conf, none, none, none, none, -1, -1⟩
  | none =>
      Response.ok ⟨true, matched, yolo_class, expected_class, step_index,
        d.conf, none, none, none, none, -1, -1⟩

/-- The detection-processing tail of `check_piece`: no detections, or no
candidate of the expected class, or the best candidate's response. -/
def runDetections (names : Int → Option String) (crop_y_start : Int)
    (expected_class : String) (step_index : Int) (dets : List Detection) :
    Response :=
  if dets.length = 0 then noDetectionsResponse expected_class step_index
  else
    match selectBest names dets expected_class with
    | none => noMatchResponse expected_class step_index
    | some i => foundResponse names crop_y_start expected_class step_index
        (dets.getD i defaultDet)

/-- The cropped frame `check_piece` hands to the detector. -/
def croppedOf (frame : Image) : Image :=
  ⟨(crop_play_area frame.height frame.width (18/100) (15/100)).1.1,
   (crop_play_area frame.height frame.width (18/100) (15/100)).1.2⟩

/-- The crop's vertical offset for a decoded frame. -/
def cropYStartOf (frame : Image) : Int :=
  (crop_play_area frame.height frame.width (18/100) (15/100)).2

/-- The `/check_piece` handler.  The second component instruments the
embedding with the frame passed to the detector (`none` when control never
reaches the inference call); the first component is the JSON response.
The surrounding `try/except` is the routing of every `Except.error` from an
oracle to `Response.err`. -/
def check_piece (env : Env) (req : Request) : Response × Option Image :=
  match req.image, req.expected_class with
  | none, _ => (Response.err missingFieldMsg, none)
  | some _, none => (Response.err missingFieldMsg, none)
  | some img_b64, some raw =>
    match env.b64decode img_b64 with
    | Except.error e => (Response.err e, none)
    | Except.ok img_bytes =>
      match env.imdecode img_bytes with
      | none => (Response.err decodeFailMsg, none)
      | some frame =>
        match env.detect (croppedOf frame) with
        | Except.error e => (Response.err e, some (croppedOf frame))
        | Except.ok dets =>
            (runDetections env.classNames (cropYStartOf frame)
              (pyStrip raw) (req.step_index.getD (-1)) dets,
             some (croppedOf frame))

/-- Center fields of a response, `none` for an error payload. -/
def centerOf : Response → Option (ℚ × ℚ)
  | Response.err _ => none
  | Response.ok p => some (p.center_x, p.center_y)

/-- The row interval the crop keeps: full-image row `r` survives
`img[y_start:y_end, 0:w]` iff `y_start ≤ r < y_start + croppedHeight`. -/
def keptRow (h w : Nat) (top bottom : ℚ) (r : Int) : Prop :=
  (crop_play_area h w top bottom).2 ≤ r ∧
  r < (crop_play_area h w top bottom).2 + ((crop_play_area h w top bottom).1.1 : Int)

lemma pyInt_eq_floor (q : ℚ) (hq : 0 ≤ q) : pyInt q = ⌊q⌋ := by
  rw [pyInt, Rat.floor_def, Int.tdiv_eq_ediv (Rat.num_nonneg.mpr hq) (by positivity)]

lemma crop_play_area_eq (h w : Nat) (top bottom : ℚ)
    (ht : 0 ≤ top) (hb : 0 ≤ bottom) (hs : top + bottom ≤ 1) :
    crop_play_area h w top bottom =
      (((⌊(h : ℚ) * (1 - bottom)⌋ - ⌊(h : ℚ) * top⌋).toNat, w), ⌊(h : ℚ) * top⌋) := by
  have h1 : (0 : ℚ) ≤ (h : ℚ) * top := by positivity
  have h1b : (0 : ℚ) ≤ 1 - bottom := by linarith
  have h2 : (0 : ℚ) ≤ (h : ℚ) * (1 - bottom) := by positivity
  have hle : ⌊(h : ℚ) * top⌋ ≤ ⌊(h : ℚ) * (1 - bottom)⌋ := by
    apply Int.floor_le_floor
    have : top ≤ 1 - bottom := by linarith
    exact mul_le_mul_of_nonneg_left this (by positivity)
  have hendh : ⌊(h : ℚ) * (1 - bottom)⌋ ≤ (h : Int) := by
    have hq : (h : ℚ) * (1 - bottom) ≤ (h : ℚ) := by nlinarith
    calc ⌊(h : ℚ) * (1 - bottom)⌋ ≤ ⌊(h : ℚ)⌋ := Int.floor_le_floor hq
    _ = (h : Int) := Int.floor_natCast h
  have hstarth : ⌊(h : ℚ) * top⌋ ≤ (h : Int) := le_trans hle hendh
  have hstart0 : 0 ≤ ⌊(h : ℚ) * top⌋ := Int.floor_nonneg.mpr h1
  have hend0 : 0 ≤ ⌊(h : ℚ) * (1 - bottom)⌋ := Int.floor_nonneg.mpr h2
  simp only [crop_play_area, pyInt_eq_floor _ h1, pyInt_eq_floor _ h2,
    min_eq_left hendh, min_eq_left hstarth]
  refine congrArg (fun n => ((n, w), ⌊(h : ℚ) * top⌋)) ?_
  omega

/-- C6: `compute_center_from_keypoints` returns `none` on an undefined,
empty, or non-`(N,2)`-shaped input and never raises (the embedding is a
total function); on a nonempty `(N,2)` input it returns the arithmetic
mean of the x coordinates and of the y coordinates independently. -/
theorem compute_center_malformed_and_mean :
    compute_center_from_keypoints none = none ∧
    compute_center_from_keypoints (some []) = none ∧
    (∀ pts : List (List ℚ), (∃ r ∈ pts, r.length ≠ 2) →
        compute_center_from_keypoints (some pts) = none) ∧
    (∀ pts : List (List ℚ), pts ≠ [] → (∀ r ∈ pts, r.length = 2) →
        compute_center_from_keypoints (some pts) =
          some ((pts.map (fun r => r.getD 0 0)).sum / pts.length,
                (pts.map (fun r => r.getD 1 0)).sum / pts.length)) := by
  refine ⟨rfl, rfl, ?_, ?_⟩
  · rintro pts ⟨r, hr, hlen⟩
    have hne : pts.length ≠ 0 := by
      cases pts
      · simp at hr
      · simp
    have hany : pts.any (fun r => r.length != 2) = true :=
      List.any_eq_true.mpr ⟨r, hr, by simpa using hlen⟩
    simp [compute_center_from_keypoints, hne, hany]
  · intro pts hne hall
    have hany : pts.any (fun r => r.length != 2) = false := by
      rw [List.any_eq_false]
      intro r hr
      simpa using hall r hr
    have hlen : pts.length ≠ 0 := by simpa [List.length_eq_zero] using hne
    simp [compute_center_from_keypoints, hlen, hany]

/-- Witness for `compute_center_malformed_and_mean`: a wrongly shaped row
yields `none`; the two points `(1,1)` and `(3,5)` yield the componentwise
mean. -/
theorem compute_center_malformed_and_mean_witness :
    compute_center_from_keypoints (some [[1, 2, 3]]) = none ∧
    compute_center_from_keypoints (some [[(1 : ℚ), 1], [3, 5]]) =
      some (([[(1 : ℚ), 1], [3, 5]].map (fun r => r.getD 0 0)).sum /
              ([[(1 : ℚ), 1], [3, 5]].length : ℚ),
            ([[(1 : ℚ), 1], [3, 5]].map (fun r => r.getD 1 0)).sum /
              ([[(1 : ℚ), 1], [3, 5]].length : ℚ)) :=
  ⟨compute_center_malformed_and_mean.2.2.1 [[1, 2, 3]]
      ⟨[1, 2, 3], by simp, by simp⟩,
   compute_center_malformed_and_mean.2.2.2 [[(1 : ℚ), 1], [3, 5]] (by simp)
      (by
        intro r hr
        simp only [List.mem_cons, List.not_mem_nil, or_false] at hr
        rcases hr with rfl | rfl <;> rfl)⟩

/-- C9 counterexample: on the three keypoints `(0,0)`, `(2,0)`, `(1,2)`
the center estimator does not return exactly `(1.0, 0.667)` — the exact
y mean is `2/3`, not `667/1000`. -/
theorem compute_center_p4_not_667 :
    compute_center_from_keypoints (some [[0, 0], [2, 0], [1, 2]]) ≠
      some (1, 667 / 1000) := by
  norm_num [compute_center_from_keypoints]

/-- C9 amended: the estimator applied to `[(0,0),(2,0),(1,2)]` returns
exactly `(1, 2/3)`; `0.667` is that value only after rounding to three
decimal places. -/
theorem compute_center_p4_exact :
    compute_center_from_keypoints (some [[0, 0], [2, 0], [1, 2]]) =
      some (1, 2 / 3) := by
  norm_num [compute_center_from_keypoints]

/-- C7 counterexample: for a 10-pixel-tall image with the default ratios,
row 8 satisfies the claim's literal condition `yOffset ≤ 8 < h·(1−bottomRatio)`
(here `8 < 8.5`), yet the crop does not keep it: the code truncates the upper
bound to `int(h·(1−bottomRatio)) = 8` and keeps rows `[1, 8)`. -/
theorem crop_rows_literal_cex :
    (crop_play_area 10 5 (18 / 100) (15 / 100)).2 ≤ (8 : Int) ∧
    ((8 : ℚ) < (10 : ℚ) * (1 - 15 / 100)) ∧
    ¬ keptRow 10 5 (18 / 100) (15 / 100) 8 := by
  have he := crop_play_area_eq 10 5 (18 / 100) (15 / 100)
    (by norm_num) (by norm_num) (by norm_num)
  have e1 : ⌊((10 : Nat) : ℚ) * (18 / 100)⌋ = 1 := by norm_num
  have e2 : ⌊((10 : Nat) : ℚ) * (1 - 15 / 100)⌋ = 8 := by norm_num
  rw [e1, e2] at he
  refine ⟨by rw [he]; norm_num, by norm_num, ?_⟩
  rw [keptRow, he]
  norm_num

/-- C7 amended: for ratios in the documented domain (both nonnegative, sum
at most 1), cropping computes `yOffset = ⌊h·topRatio⌋` and keeps exactly the
full width of rows `[⌊h·topRatio⌋, ⌊h·(1−bottomRatio)⌋)` — the upper bound is
also truncated to an integer; concretely, a 1000-pixel-tall image with
topRatio = 0.18 and bottomRatio = 0.15 yields `yOffset = 180` and crop rows
`[180, 850)`. -/
theorem crop_rows_spec (h w : Nat) (top bottom : ℚ)
    (ht : 0 ≤ top) (hb : 0 ≤ bottom) (hs : top + bottom ≤ 1) :
    (crop_play_area h w top bottom).2 = ⌊(h : ℚ) * top⌋ ∧
    (crop_play_area h w top bottom).1.2 = w ∧
    (∀ r : Int, keptRow h w top bottom r ↔
        ⌊(h : ℚ) * top⌋ ≤ r ∧ r < ⌊(h : ℚ) * (1 - bottom)⌋) := by
  have he := crop_play_area_eq h w top bottom ht hb hs
  have hle : ⌊(h : ℚ) * top⌋ ≤ ⌊(h : ℚ) * (1 - bottom)⌋ := by
    apply Int.floor_le_floor
    have : top ≤ 1 - bottom := by linarith
    exact mul_le_mul_of_nonneg_left this (by positivity)
  refine ⟨by rw [he], by rw [he], fun r => ?_⟩
  rw [keptRow, he]
  simp only
  omega

/-- Witness for `crop_rows_spec` at the claim's concrete instance:
height 1000 with the default ratios gives `yOffset = 180`, row 180 kept,
row 850 not kept. -/
theorem crop_rows_spec_witness :
    (crop_play_area 1000 5 (18 / 100) (15 / 100)).2 = 180 ∧
    keptRow 1000 5 (18 / 100) (15 / 100) 180 ∧
    ¬ keptRow 1000 5 (18 / 100) (15 / 100) 850 := by
  obtain ⟨h1, _, h3⟩ := crop_rows_spec 1000 5 (18 / 100) (15 / 100)
    (by norm_num) (by norm_num) (by norm_num)
  have e1 : ⌊((1000 : Nat) : ℚ) * (18 / 100)⌋ = 180 := by norm_num
  have e2 : ⌊((1000 : Nat) : ℚ) * (1 - 15 / 100)⌋ = 850 := by norm_num
  refine ⟨by rw [h1, e1], ?_, ?_⟩
  · rw [h3, e1, e2]
    norm_num
  · rw [h3, e1, e2]
    norm_num

lemma pyFoldMax_cons (key : Nat → ℚ) (b x : Nat) (xs : List Nat) :
    pyFoldMax key b (x :: xs) =
      pyFoldMax key (if key b < key x then x else b) xs := rfl

/-- Behaviour of CPython `max` over a strictly increasing list of indices:
the result is a listed index of maximal key, and the smallest such index
(ties go to the earliest position). -/
lemma pyFoldMax_spec (key : Nat → ℚ) :
    ∀ (l : List Nat) (b : Nat), (b :: l).Pairwise (· < ·) →
      (pyFoldMax key b l = b ∨ pyFoldMax key b l ∈ l) ∧
      key b ≤ key (pyFoldMax key b l) ∧
      (∀ j ∈ l, key j ≤ key (pyFoldMax key b l)) ∧
      (∀ j ∈ l, key j = key (pyFoldMax key b l) → pyFoldMax key b l ≤ j) ∧
      (key (pyFoldMax key b l) = key b → pyFoldMax key b l = b)
  | [], b, _ => by simp [pyFoldMax]
  | x :: xs, b, hp => by
      rw [List.pairwise_cons] at hp
      obtain ⟨hball, hxp⟩ := hp
      have hbx : b < x := hball x (List.mem_cons_self x xs)
      by_cases hk : key b < key x
      · rw [pyFoldMax_cons, if_pos hk]
        obtain ⟨hmem, hkx, hmax, hties, hfix⟩ := pyFoldMax_spec key xs x hxp
        refine ⟨?_, le_trans (le_of_lt hk) hkx, ?_, ?_, ?_⟩
        · rcases hmem with h | h
          · exact Or.inr (List.mem_cons.mpr (Or.inl h))
          · exact Or.inr (List.mem_cons_of_mem x h)
        · intro j hj
          rcases List.mem_cons.mp hj with rfl | hj
          · exact hkx
          · exact hmax j hj
        · intro j hj hje
          rcases List.mem_cons.mp hj with rfl | hj
          · exact le_of_eq (hfix hje.symm)
          · exact hties j hj hje
        · intro hre
          exact absurd hre (ne_of_gt (lt_of_lt_of_le hk hkx))
      · rw [pyFoldMax_cons, if_neg hk]
        have hxp' : (b :: xs).Pairwise (· < ·) := by
          rw [List.pairwise_cons] at hxp ⊢
          exact ⟨fun a ha => hball a (List.mem_cons_of_mem x ha), hxp.2⟩
        obtain ⟨hmem, hkb, hmax, hties, hfix⟩ := pyFoldMax_spec key xs b hxp'
        have hxb : key x ≤ key b := not_lt.mp hk
        refine ⟨?_, hkb, ?_, ?_, hfix⟩
        · rcases hmem with h | h
          · exact Or.inl h
          · exact Or.inr (List.mem_cons_of_mem x h)
        · intro j hj
          rcases List.mem_cons.mp hj with rfl | hj
          · exact le_trans hxb hkb
          · exact hmax j hj
        · intro j hj hje
          rcases List.mem_cons.mp hj with rfl | hj
          · have heq : key (pyFoldMax key b xs) = key b :=
              le_antisymm (hje ▸ hxb) hkb
            rw [hfix heq]
            exact le_of_lt hbx
          · exact hties j hj hje

lemma mem_candidateIndices (names : Int → Option String) (dets : List Detection)
    (expected : String) (i : Nat) :
    i ∈ candidateIndices names dets expected ↔
      i < dets.length ∧ detClass names dets i = expected := by
  simp [candidateIndices, List.mem_filter]

lemma candidateIndices_pairwise (names : Int → Option String)
    (dets : List Detection) (expected : String) :
    (candidateIndices names dets expected).Pairwise (· < ·) :=
  (List.pairwise_lt_range _).filter _

/-- C1: selection first strips the caller's expected-class string; the
candidate set is exactly the indices whose class name equals the stripped
string (case-sensitive); the selected index is such a candidate, has
maximal confidence among them, and any equally confident candidate lies at
the same or a later position in the detector's original ordering. -/
theorem selection_spec (names : Int → Option String) (dets : List Detection)
    (raw : String) (m : Nat)
    (h : selectBest names dets (pyStrip raw) = some m) :
    (∀ i, i ∈ candidateIndices names dets (pyStrip raw) ↔
        i < dets.length ∧ detClass names dets i = pyStrip raw) ∧
    m < dets.length ∧ detClass names dets m = pyStrip raw ∧
    (∀ j, j < dets.length → detClass names dets j = pyStrip raw →
        detConf dets j ≤ detConf dets m) ∧
    (∀ j, j < dets.length → detClass names dets j = pyStrip raw →
        detConf dets j = detConf dets m → m ≤ j) := by
  refine ⟨fun i => mem_candidateIndices names dets (pyStrip raw) i, ?_⟩
  unfold selectBest at h
  rcases hc : candidateIndices names dets (pyStrip raw) with _ | ⟨i, is⟩
  · rw [hc] at h
    exact absurd h (by simp)
  · rw [hc] at h
    injection h with h
    have hpw : (i :: is).Pairwise (· < ·) :=
      hc ▸ candidateIndices_pairwise names dets (pyStrip raw)
    obtain ⟨hmem, hkeyi, hmax, hties, hfix⟩ := pyFoldMax_spec (detConf dets) is i hpw
    rw [h] at hmem hkeyi hmax hties hfix
    have hmcand : m ∈ candidateIndices names dets (pyStrip raw) := by
      rw [hc]
      rcases hmem with rfl | hm
      · exact List.mem_cons_self m is
      · exact List.mem_cons_of_mem i hm
    obtain ⟨hmlen, hmcls⟩ := (mem_candidateIndices names dets (pyStrip raw) m).mp hmcand
    refine ⟨hmlen, hmcls, ?_, ?_⟩
    · intro j hj hcls
      have hjc : j ∈ candidateIndices names dets (pyStrip raw) :=
        (mem_candidateIndices names dets (pyStrip raw) j).mpr ⟨hj, hcls⟩
      rw [hc] at hjc
      rcases List.mem_cons.mp hjc with rfl | hjc
      · exact hkeyi
      · exact hmax j hjc
    · intro j hj hcls hje
      have hjc : j ∈ candidateIndices names dets (pyStrip raw) :=
        (mem_candidateIndices names dets (pyStrip raw) j).mpr ⟨hj, hcls⟩
      rw [hc] at hjc
      rcases List.mem_cons.mp hjc with rfl | hjc
      · exact le_of_eq (hfix hje.symm)
      · exact hties j hjc hje

/-- The class-name table of the P6 example: id 0 is "A", id 1 is "B". -/
def namesEx : Int → Option String := fun i =>
  if i = 0 then some "A" else if i = 1 then some "B" else none

/-- The P6 example detections `[(A, 0.3), (B, 0.9), (A, 0.8)]`. -/
def detsEx : List Detection :=
  [⟨0, 3/10, [], none⟩, ⟨1, 9/10, [], none⟩, ⟨0, 8/10, [], none⟩]

/-- Witness for `selection_spec` on the P6 example: the third detection
(index 2, confidence 0.8) is selected, it is a class-"A" candidate, and the
other "A" candidate (confidence 0.3) does not beat it — the higher-confidence
"B" detection is not even a candidate. -/
theorem selection_spec_witness :
    selectBest namesEx detsEx (pyStrip "A") = some 2 ∧
    2 < detsEx.length ∧ detClass namesEx detsEx 2 = pyStrip "A" ∧
    detConf detsEx 0 ≤ detConf detsEx 2 ∧
    ¬ (1 ∈ candidateIndices namesEx detsEx (pyStrip "A")) := by
  have h : selectBest namesEx detsEx (pyStrip "A") = some 2 := by
    have hA : pyStrip "A" = "A" := rfl
    rw [hA]
    have hc : candidateIndices namesEx detsEx "A" = [0, 2] := by
      simp [candidateIndices, List.range_succ, detClass, detsEx, namesEx, classNameOf]
    simp only [selectBest, hc]
    simp only [pyFoldMax, List.foldl_cons, List.foldl_nil]
    rw [if_pos (by norm_num [detConf, detsEx])]
  have H := selection_spec namesEx detsEx "A" 2 h
  refine ⟨h, H.2.1, H.2.2.1, H.2.2.2.1 0 (by norm_num [detsEx]) rfl, ?_⟩
  intro h1
  have := (H.1 1).mp h1
  have hB : detClass namesEx detsEx 1 = "B" := rfl
  have hA : pyStrip "A" = "A" := rfl
  rw [hB, hA] at this
  exact absurd this.2 (by simp)

/-- Every found-branch response is an `ok` payload with `found = true`,
`matched` the threshold test on the best confidence, the tabled class name,
and the echoed expected class and step index. -/
lemma foundResponse_ok (names : Int → Option String) (cys : Int) (ec : String)
    (si : Int) (d : Detection) :
    ∃ q : OkPayload, foundResponse names cys ec si d = Response.ok q ∧
      q.found = true ∧ q.matched = decide (THRESH ≤ d.conf) ∧
      q.yolo_class = classNameOf names d.clsId ∧ q.expected_class = ec ∧
      q.step_index = si ∧ q.confidence = d.conf := by
  rcases hk : d.keypoints with _ | kp
  · refine ⟨⟨true, decide (THRESH ≤ d.conf), classNameOf names d.clsId, ec, si,
      d.conf, none, none, none, none, -1, -1⟩, ?_, rfl, rfl, rfl, rfl, rfl, rfl⟩
    simp [foundResponse, hk]
  · rcases hc : compute_center_from_keypoints (some kp) with _ | ⟨cx, cy⟩
    · refine ⟨⟨true, decide (THRESH ≤ d.conf), classNameOf names d.clsId, ec, si,
        d.conf, none, none, none, none, -1, -1⟩, ?_, rfl, rfl, rfl, rfl, rfl, rfl⟩
      simp [foundResponse, hk, estimate_pose, hc]
    · refine ⟨⟨true, decide (THRESH ≤ d.conf), classNameOf names d.clsId, ec, si,
        d.conf, none, none, none, none, cx, cy + (cys : ℚ)⟩, ?_, rfl, rfl, rfl,
        rfl, rfl, rfl⟩
      simp [foundResponse, hk, estimate_pose, hc]

/-- Every `ok` response of the detection tail echoes the expected class and
the step index it was given. -/
lemma runDetections_ok_fields (names : Int → Option String) (cys : Int)
    (ec : String) (si : Int) (dets : List Detection) (p : OkPayload)
    (h : runDetections names cys ec si dets = Response.ok p) :
    p.expected_class = ec ∧ p.step_index = si := by
  unfold runDetections at h
  split at h
  · unfold noDetectionsResponse at h
    injection h with h
    subst h
    exact ⟨rfl, rfl⟩
  · split at h
    · unfold noMatchResponse at h
      injection h with h
      subst h
      exact ⟨rfl, rfl⟩
    · obtain ⟨q, hq, _, _, _, hec, hsi, _⟩ := foundResponse_ok names cys ec si _
      rw [hq] at h
      injection h with h
      subst h
      exact ⟨hec, hsi⟩

/-- In the detection tail, a `found = false` payload carries the no-match
defaults. -/
lemma runDetections_found_false (names : Int → Option String) (cys : Int)
    (ec : String) (si : Int) (dets : List Detection) (p : OkPayload)
    (h : runDetections names cys ec si dets = Response.ok p)
    (hf : p.found = false) :
    p.matched = false ∧ p.yolo_class = "" ∧ p.confidence = 0 ∧
    p.center_x = -1 ∧ p.center_y = -1 := by
  unfold runDetections at h
  split at h
  · unfold noDetectionsResponse at h
    injection h with h
    subst h
    exact ⟨rfl, rfl, rfl, rfl, rfl⟩
  · split at h
    · unfold noMatchResponse at h
      injection h with h
      subst h
      exact ⟨rfl, rfl, rfl, rfl, rfl⟩
    · obtain ⟨q, hq, hfound, _⟩ := foundResponse_ok names cys ec si _
      rw [hq] at h
      injection h with h
      subst h
      rw [hfound] at hf
      simp at hf

/-- In the detection tail, a `found = true` payload has `matched` equal to
the threshold test on its own reported confidence. -/
lemma runDetections_found_true (names : Int → Option String) (cys : Int)
    (ec : String) (si : Int) (dets : List Detection) (p : OkPayload)
    (h : runDetections names cys ec si dets = Response.ok p)
    (hf : p.found = true) :
    p.matched = decide (THRESH ≤ p.confidence) := by
  unfold runDetections at h
  split at h
  · unfold noDetectionsResponse at h
    injection h with h
    subst h
    simp at hf
  · split at h
    · unfold noMatchResponse at h
      injection h with h
      subst h
      simp at hf
    · obtain ⟨q, hq, _, hm, _, _, _, hconf⟩ := foundResponse_ok names cys ec si _
      rw [hq] at h
      injection h with h
      subst h
      rw [hm, hconf]

/-- Inversion of the handler on an `ok` response: every stage succeeded and
the payload is the one built by the detection tail from the stripped
expected class and the defaulted step index. -/
lemma check_piece_ok_inv (env : Env) (req : Request) (p : OkPayload)
    (tr : Option Image)
    (h : check_piece env req = (Response.ok p, tr)) :
    ∃ b raw bytes frame dets,
      req.image = some b ∧ req.expected_class = some raw ∧
      env.b64decode b = Except.ok bytes ∧ env.imdecode bytes = some frame ∧
      env.detect (croppedOf frame) = Except.ok dets ∧
      tr = some (croppedOf frame) ∧
      runDetections env.classNames (cropYStartOf frame) (pyStrip raw)
        (req.step_index.getD (-1)) dets = Response.ok p := by
  unfold check_piece at h
  split at h
  · simp at h
  · simp at h
  · rename_i img_b64 raw hb hraw
    split at h
    · simp at h
    · rename_i bytes h64
      split at h
      · simp at h
      · rename_i frame him
        split at h
        · simp at h
        · rename_i dets hdet
          rw [Prod.mk.injEq] at h
          exact ⟨img_b64, raw, bytes, frame, dets, hb, hraw, h64, him, hdet,
            h.2.symm, h.1⟩

/-- C2: in every `ok` response with `found = true`, `matched` is true iff
the reported confidence is at least the fixed threshold 0.45; `matched`
depends on nothing but this confidence test. -/
theorem matched_threshold (env : Env) (req : Request) (p : OkPayload)
    (tr : Option Image) (h : check_piece env req = (Response.ok p, tr))
    (hf : p.found = true) :
    p.matched = true ↔ (45 : ℚ) / 100 ≤ p.confidence := by
  obtain ⟨b, raw, bytes, frame, dets, _, _, _, _, _, _, hrun⟩ :=
    check_piece_ok_inv env req p tr h
  rw [runDetections_found_true _ _ _ _ _ _ hrun hf]
  simp [THRESH]

/-- C3: in every `ok` response with `found = false` (no detections at all,
or none of the expected class), `matched` is false, `yolo_class` is empty,
`confidence` is 0, and the full-frame center is the sentinel `(-1, -1)`. -/
theorem found_false_defaults (env : Env) (req : Request) (p : OkPayload)
    (tr : Option Image) (h : check_piece env req = (Response.ok p, tr))
    (hf : p.found = false) :
    p.matched = false ∧ p.yolo_class = "" ∧ p.confidence = 0 ∧
    p.center_x = -1 ∧ p.center_y = -1 := by
  obtain ⟨b, raw, bytes, frame, dets, _, _, _, _, _, _, hrun⟩ :=
    check_piece_ok_inv env req p tr h
  exact runDetections_found_false _ _ _ _ _ _ hrun hf

/-- C10: when the request has no `step_index` field, every non-error
response reports `step_index = -1`. -/
theorem step_index_default (env : Env) (req : Request) (p : OkPayload)
    (tr : Option Image) (h : check_piece env req = (Response.ok p, tr))
    (hsi : req.step_index = none) :
    p.step_index = -1 := by
  obtain ⟨b, raw, bytes, frame, dets, _, _, _, _, _, _, hrun⟩ :=
    check_piece_ok_inv env req p tr h
  rw [(runDetections_ok_fields _ _ _ _ _ _ hrun).2, hsi]
  rfl

/-- C4: whenever the selected detection's keypoints yield a local center
`(cx, cy)`, the found-branch reports the full-frame center
`(cx, cy + yOffset)` — x unchanged, y shifted — and subtracting the offset
recovers the local y exactly; whenever no local center exists, the
reported center is the sentinel `(-1, -1)`. -/
theorem remap_affine (names : Int → Option String) (cys : Int) (ec : String)
    (si : Int) (d : Detection) :
    (∀ cx cy, compute_center_from_keypoints d.keypoints = some (cx, cy) →
        centerOf (foundResponse names cys ec si d) = some (cx, cy + (cys : ℚ)) ∧
        (cy + (cys : ℚ)) - (cys : ℚ) = cy) ∧
    (compute_center_from_keypoints d.keypoints = none →
        centerOf (foundResponse names cys ec si d) = some (-1, -1)) := by
  constructor
  · intro cx cy hc
    rcases hk : d.keypoints with _ | kp
    · rw [hk] at hc
      simp [compute_center_from_keypoints] at hc
    · rw [hk] at hc
      refine ⟨?_, by ring⟩
      simp [foundResponse, hk, estimate_pose, hc, centerOf]
  · intro hc
    rcases hk : d.keypoints with _ | kp
    · simp [foundResponse, hk, centerOf]
    · rw [hk] at hc
      simp [foundResponse, hk, estimate_pose, hc, centerOf]

/-- C5: the handler is a total function to a single response payload — no
exception escapes (oracle faults are `Except.error` values routed to the
error payload).  A missing `image` or `expected_class` yields the
missing-field error payload immediately; a base64 fault, an undecodable
image, and a detector fault each become `{success:false, error}`; and every
request produces either an error payload or an `ok` payload. -/
theorem error_normalization (env : Env) (req : Request) :
    ((req.image = none ∨ req.expected_class = none) →
        (check_piece env req).1 = Response.err missingFieldMsg) ∧
    (∀ b raw, req.image = some b → req.expected_class = some raw →
      (∀ e, env.b64decode b = Except.error e →
          (check_piece env req).1 = Response.err e) ∧
      (∀ bytes, env.b64decode b = Except.ok bytes → env.imdecode bytes = none →
          (check_piece env req).1 = Response.err decodeFailMsg) ∧
      (∀ bytes frame e, env.b64decode b = Except.ok bytes →
          env.imdecode bytes = some frame →
          env.detect (croppedOf frame) = Except.error e →
          (check_piece env req).1 = Response.err e)) ∧
    ((∃ m, (check_piece env req).1 = Response.err m) ∨
     (∃ q, (check_piece env req).1 = Response.ok q)) := by
  refine ⟨?_, ?_, ?_⟩
  · rintro (hi | he)
    · simp [check_piece, hi]
    · rcases hr : req.image with _ | b <;> simp [check_piece, he, hr]
  · intro b raw hb hraw
    refine ⟨?_, ?_, ?_⟩
    · intro e he
      simp [check_piece, hb, hraw, he]
    · intro bytes h64 him
      simp [check_piece, hb, hraw, h64, him]
    · intro bytes frame e h64 him hdet
      simp [check_piece, hb, hraw, h64, him, hdet]
  · rcases hr : (check_piece env req).1 with msg | q
    · exact Or.inl ⟨msg, rfl⟩
    · exact Or.inr ⟨q, rfl⟩

/-- C8 amended (general part): once an image decodes, the pipeline always
hands the cropped frame to the detector — it performs no degenerate-crop
check, even when the cropped height is 0 — and a fault raised by the
detector is converted into the error payload at the request boundary. -/
theorem degenerate_crop_proceeds (env : Env) (req : Request) (b raw : String)
    (bytes : List Nat) (frame : Image)
    (hb : req.image = some b) (hraw : req.expected_class = some raw)
    (h64 : env.b64decode b = Except.ok bytes)
    (him : env.imdecode bytes = some frame) :
    (check_piece env req).2 = some (croppedOf frame) ∧
    (∀ e, env.detect (croppedOf frame) = Except.error e →
        (check_piece env req).1 = Response.err e) := by
  constructor
  · rcases hd : env.detect (croppedOf frame) with e | dets <;>
      simp [check_piece, hb, hraw, h64, him, hd]
  · intro e hd
    simp [check_piece, hb, hraw, h64, him, hd]

/-- Environment of the matched-threshold witness: the detector reports one
class-"A" detection with confidence 0.6 and no keypoints. -/
def envC2 : Env :=
  { classNames := namesEx
    b64decode := fun _ => Except.ok []
    imdecode := fun _ => some ⟨1000, 5⟩
    detect := fun _ => Except.ok [⟨0, 6/10, [], none⟩] }

def reqC2 : Request := ⟨some "img", some "A", some 3⟩

/-- Witness for `matched_threshold`: a found response with confidence 0.6
has `matched = true`, and the threshold test holds at 0.6. -/
theorem matched_threshold_witness :
    check_piece envC2 reqC2 =
      (Response.ok ⟨true, true, "A", pyStrip "A", 3, 6/10,
        none, none, none, none, -1, -1⟩, some (croppedOf ⟨1000, 5⟩)) ∧
    ((true = true) ↔ (45 : ℚ) / 100 ≤ 6 / 10) := by
  have h : check_piece envC2 reqC2 =
      (Response.ok ⟨true, true, "A", pyStrip "A", 3, 6/10,
        none, none, none, none, -1, -1⟩, some (croppedOf ⟨1000, 5⟩)) := by
    have hA : pyStrip "A" = "A" := rfl
    have hc : candidateIndices namesEx [⟨0, 6/10, [], none⟩] "A" = [0] := by
      simp [candidateIndices, List.range_succ, detClass, classNameOf, namesEx]
    have hth : decide (THRESH ≤ (6 : ℚ)/10) = true := by
      rw [decide_eq_true_iff]
      norm_num [THRESH]
    simp only [check_piece, envC2, reqC2, hA]
    simp only [runDetections, selectBest, hc, pyFoldMax, List.foldl_nil]
    simp [foundResponse, hth, hA, classNameOf, namesEx]
  exact ⟨h, matched_threshold envC2 reqC2 _ _ h rfl⟩

/-- Environment of the found-false witness: only a class-"B" detection is
present while "A" is expected. -/
def envC3 : Env :=
  { classNames := namesEx
    b64decode := fun _ => Except.ok []
    imdecode := fun _ => some ⟨1000, 5⟩
    detect := fun _ => Except.ok [⟨1, 9/10, [], none⟩] }

def reqC3 : Request := ⟨some "img", some "A", some 2⟩

/-- Witness for `found_false_defaults`: with only a "B" detection and
expected class "A", the response carries the no-match defaults. -/
theorem found_false_defaults_witness :
    check_piece envC3 reqC3 =
      (Response.ok ⟨false, false, "", pyStrip "A", 2, 0,
        none, none, none, none, -1, -1⟩, some (croppedOf ⟨1000, 5⟩)) ∧
    ((⟨false, false, "", pyStrip "A", 2, 0, none, none, none, none, -1, -1⟩ :
        OkPayload).matched = false ∧
     (⟨false, false, "", pyStrip "A", 2, 0, none, none, none, none, -1, -1⟩ :
        OkPayload).yolo_class = "" ∧
     (⟨false, false, "", pyStrip "A", 2, 0, none, none, none, none, -1, -1⟩ :
        OkPayload).confidence = 0 ∧
     (⟨false, false, "", pyStrip "A", 2, 0, none, none, none, none, -1, -1⟩ :
        OkPayload).center_x = -1 ∧
     (⟨false, false, "", pyStrip "A", 2, 0, none, none, none, none, -1, -1⟩ :
        OkPayload).center_y = -1) := by
  have h : check_piece envC3 reqC3 =
      (Response.ok ⟨false, false, "", pyStrip "A", 2, 0,
        none, none, none, none, -1, -1⟩, some (croppedOf ⟨1000, 5⟩)) := by
    have hA : pyStrip "A" = "A" := rfl
    have hc : candidateIndices namesEx [⟨1, 9/10, [], none⟩] "A" = [] := by
      simp [candidateIndices, List.range_succ, detClass, classNameOf, namesEx]
    simp only [check_piece, envC3, reqC3, hA]
    simp [runDetections, selectBest, hc, noMatchResponse, hA]
  exact ⟨h, found_false_defaults envC3 reqC3 _ _ h rfl⟩

/-- Environment of the default-step-index witness. -/
def envC10 : Env :=
  { classNames := fun _ => none
    b64decode := fun _ => Except.ok []
    imdecode := fun _ => some ⟨800, 5⟩
    detect := fun _ => Except.ok [] }

/-- A request whose `step_index` field is absent. -/
def reqC10 : Request := ⟨some "img", some "piece", none⟩

/-- Witness for `step_index_default`: with `step_index` absent, the
no-detections response reports `step_index = -1`. -/
theorem step_index_default_witness :
    check_piece envC10 reqC10 =
      (noDetectionsResponse (pyStrip "piece") (-1), some (croppedOf ⟨800, 5⟩)) ∧
    (⟨false, false, "", pyStrip "piece", -1, 0, none, none, none, none, -1, -1⟩ :
        OkPayload).step_index = -1 := by
  have h : check_piece envC10 reqC10 =
      (noDetectionsResponse (pyStrip "piece") (-1), some (croppedOf ⟨800, 5⟩)) := by
    simp [check_piece, envC10, reqC10, runDetections]
  exact ⟨h, step_index_default envC10 reqC10
    ⟨false, false, "", pyStrip "piece", -1, 0, none, none, none, none, -1, -1⟩
    (some (croppedOf ⟨800, 5⟩)) h rfl⟩

/-- Witness for `remap_affine`: keypoint rows `[(50,60)]` give the local
center `(50, 60)`; with crop offset 100 the reported full-frame center is
`(50, 60 + 100)` and subtracting the offset recovers 60. -/
theorem remap_affine_witness :
    centerOf (foundResponse namesEx 100 "A" 0 ⟨0, 6/10, [], some [[50, 60]]⟩) =
      some (50, 60 + ((100 : Int) : ℚ)) ∧
    ((60 : ℚ) + ((100 : Int) : ℚ)) - ((100 : Int) : ℚ) = 60 := by
  have hc : compute_center_from_keypoints (some [[(50 : ℚ), 60]]) =
      some (50, 60) := by
    norm_num [compute_center_from_keypoints]
  exact (remap_affine namesEx 100 "A" 0 ⟨0, 6/10, [], some [[50, 60]]⟩).1 50 60 hc

/-- Environment of the error-normalization witness: base64 decoding raises. -/
def envC5 : Env :=
  { classNames := fun _ => none
    b64decode := fun _ => Except.error "bad base64"
    imdecode := fun _ => none
    detect := fun _ => Except.ok [] }

/-- Witness for `error_normalization`: a request without `image` gets the
missing-field payload; a raising base64 decode gets its message as the
error payload. -/
theorem error_normalization_witness :
    (check_piece envC5 ⟨none, some "A", none⟩).1 = Response.err missingFieldMsg ∧
    (check_piece envC5 ⟨some "img", some "A", none⟩).1 = Response.err "bad base64" :=
  ⟨(error_normalization envC5 ⟨none, some "A", none⟩).1 (Or.inl rfl),
   ((error_normalization envC5 ⟨some "img", some "A", none⟩).2.1 "img" "A"
      rfl rfl).1 "bad base64" rfl⟩

/-- A 1-pixel-tall frame: its crop is empty (height 0). -/
def degEnv : Env :=
  { classNames := fun _ => none
    b64decode := fun _ => Except.ok []
    imdecode := fun _ => some ⟨1, 5⟩
    detect := fun _ => Except.ok [] }

def degReq : Request := ⟨some "img", some "piece", some 0⟩

/-- C8 counterexample: for a 1-pixel-tall image the crop height is 0, yet
the pipeline does not report the degenerate crop as a failure — it invokes
the detector on the empty cropped frame and (the detector returning no
detections) answers with a normal success payload. -/
theorem degenerate_crop_cex :
    (croppedOf ⟨1, 5⟩).height = 0 ∧
    check_piece degEnv degReq =
      (noDetectionsResponse (pyStrip "piece") 0, some (croppedOf ⟨1, 5⟩)) ∧
    (∀ m, (check_piece degEnv degReq).1 ≠ Response.err m) := by
  have hcrop : (croppedOf ⟨1, 5⟩).height = 0 := by
    have he := crop_play_area_eq 1 5 (18/100) (15/100)
      (by norm_num) (by norm_num) (by norm_num)
    have e1 : ⌊((1 : Nat) : ℚ) * (18/100)⌋ = 0 := by norm_num
    have e2 : ⌊((1 : Nat) : ℚ) * (1 - 15/100)⌋ = 0 := by norm_num
    rw [e1, e2] at he
    simp [croppedOf, he]
  have h : check_piece degEnv degReq =
      (noDetectionsResponse (pyStrip "piece") 0, some (croppedOf ⟨1, 5⟩)) := by
    simp [check_piece, degEnv, degReq, runDetections]
  refine ⟨hcrop, h, fun m => ?_⟩
  rw [h]
  simp [noDetectionsResponse]

/-- Environment of the amended-C8 witness: the detector raises on its
(empty) input. -/
def degEnvErr : Env :=
  { classNames := fun _ => none
    b64decode := fun _ => Except.ok []
    imdecode := fun _ => some ⟨1, 5⟩
    detect := fun _ => Except.error "empty frame" }

def degReqErr : Request := ⟨some "img", some "piece", none⟩

/-- Witness for `degenerate_crop_proceeds`: on a 1-pixel-tall frame the
detector is invoked with the (empty) cropped frame, and its fault becomes
the error payload. -/
theorem degenerate_crop_proceeds_witness :
    (check_piece degEnvErr degReqErr).2 = some (croppedOf ⟨1, 5⟩) ∧
    (check_piece degEnvErr degReqErr).1 = Response.err "empty frame" := by
  have H := degenerate_crop_proceeds degEnvErr degReqErr "img" "piece" []
    ⟨1, 5⟩ rfl rfl rfl rfl
  exact ⟨H.1, H.2 "empty frame" rfl⟩
